import Mathlib

/-!
Verification of the Pointer CLI conversational tool-orchestration engine.

This file shallowly embeds the Python sources under `CLI/pointer_cli/`
(`tools.py`, `utils.py`, `chat.py`, `chat_manager.py`, `codebase_context.py`,
`core.py`) as executable Lean definitions and proves or refutes the frozen
claims about them.  Python strings are modelled as Lean `String`/`List Char`,
Python dicts as insertion-ordered association lists with last-write-wins
update (matching CPython dict semantics), the filesystem as explicit data,
and library calls (`json.loads`, `fnmatch.fnmatch`, the HTTP transport, the
subprocess) as explicit parameters or oracles.
-/

namespace Pointer

/-! ## Python string primitives

Exact models of the `str` operations the sources use: `strip`, `split`,
`split(sep, 1)`, `startswith`, slicing, and membership. -/

/-- Characters matched by Python `str.strip()` (and by `\s` in `re`),
for the ASCII range the sources deal in. -/
def pySpace (c : Char) : Bool :=
  c = ' ' || c = '\t' || c = '\n' || c = '\r' || c = '\x0b' || c = '\x0c'

/-- Python `s.strip()` on a character list. -/
def pyStripL (l : List Char) : List Char :=
  ((l.dropWhile pySpace).reverse.dropWhile pySpace).reverse

/-- Python `s.strip()` on a `String`. -/
def pyStrip (s : String) : String :=
  ⟨pyStripL s.data⟩

/-- Python `s.strip(c)` for a single strip character: removes every leading
and trailing occurrence of `c`. -/
def pyStripChar (c : Char) (l : List Char) : List Char :=
  ((l.dropWhile (· = c)).reverse.dropWhile (· = c)).reverse

/-- Python `s.split(sep)` for a one-character separator: splits at every
occurrence, keeping empty pieces (`"".split(c) == [""]`). -/
def splitChar (c : Char) : List Char → List (List Char)
  | [] => [[]]
  | x :: xs =>
    let r := splitChar c xs
    if x = c then [] :: r
    else
      match r with
      | h :: t => (x :: h) :: t
      | [] => [[x]]

/-- Python `s.split(sep, 1)` for a one-character separator, returning the
two halves when the separator occurs; `none` models `sep not in s`. -/
def splitFirst (c : Char) : List Char → Option (List Char × List Char)
  | [] => none
  | x :: xs =>
    if x = c then some ([], xs)
    else
      match splitFirst c xs with
      | some (a, b) => some (x :: a, b)
      | none => none

/-- Python `s.startswith(p)`. -/
def listStartsWith : List Char → List Char → Bool
  | _, [] => true
  | [], _ :: _ => false
  | x :: xs, y :: ys => x = y && listStartsWith xs ys

/-- Python `sub in s` (substring containment). -/
def substrIn (sub : List Char) : List Char → Bool
  | [] => listStartsWith [] sub
  | x :: xs => listStartsWith (x :: xs) sub || substrIn sub xs

/-- Split `s` at the first occurrence of `sub`: returns the part before the
occurrence and the part after it.  `none` when `sub` does not occur.
(`sub` is assumed non-empty by all callers.) -/
def breakOnSub (sub : List Char) : List Char → Option (List Char × List Char)
  | [] => none
  | x :: xs =>
    if listStartsWith (x :: xs) sub then some ([], (x :: xs).drop sub.length)
    else
      match breakOnSub sub xs with
      | some (a, b) => some (x :: a, b)
      | none => none

/-- Python `'\n'.join`-style rendering with a separator string. -/
def joinSep (sep : String) : List String → String
  | [] => ""
  | [x] => x
  | x :: y :: t => x ++ sep ++ joinSep sep (y :: t)

/-- The lines of a string, as Python `s.split('\n')`. -/
def pyLines (s : String) : List String :=
  (splitChar '\n' s.data).map (fun l => ⟨l⟩)

/-! ## Python dicts

CPython dicts preserve insertion order; assigning to an existing key updates
the value in place, a new key is appended.  Lookups return the (single)
binding of the key. -/

/-- Python `d[k] = v` on an insertion-ordered association list: an existing
binding is updated in place, a new key is appended.  (Dicts built from `[]`
through `dset` never hold a key twice, so updating the first binding is
exactly CPython's behaviour.) -/
def dset {α : Type} : List (String × α) → String → α → List (String × α)
  | [], k, v => [(k, v)]
  | p :: t, k, v => if p.1 = k then (k, v) :: t else p :: dset t k v

/-- Python `d.get(k)` / `k in d`. -/
def dget {α : Type} : List (String × α) → String → Option α
  | [], _ => none
  | p :: t, k => if p.1 = k then some p.2 else dget t k

theorem dget_dset_self {α : Type} (d : List (String × α)) (k : String) (v : α) :
    dget (dset d k v) k = some v := by
  induction d with
  | nil => simp [dset, dget]
  | cons p t ih =>
    by_cases hp : p.1 = k
    · simp [dset, dget, hp]
    · simp [dset, dget, hp, ih]

/-- A `dget` hit on an updated dict is either the new value or an old hit. -/
theorem dget_dset_cases {α : Type} (d : List (String × α)) (k k' : String)
    (v w : α) (h : dget (dset d k v) k' = some w) :
    w = v ∨ dget d k' = some w := by
  induction d with
  | nil =>
    simp only [dset, dget] at h
    by_cases hk : k = k'
    · rw [if_pos hk] at h
      exact Or.inl (Option.some.inj h).symm
    · rw [if_neg hk] at h
      exact absurd h (by simp)
  | cons p t ih =>
    by_cases hp : p.1 = k
    · simp only [dset, if_pos hp, dget] at h
      by_cases hk : k = k'
      · rw [if_pos hk] at h
        exact Or.inl (Option.some.inj h).symm
      · rw [if_neg hk] at h
        refine Or.inr ?_
        simp only [dget]
        rw [if_neg (fun hh => hk (hp ▸ hh))]
        exact h
    · simp only [dset, if_neg hp, dget] at h
      by_cases hk : p.1 = k'
      · rw [if_pos hk] at h
        exact Or.inr (by simp [dget, hk, h])
      · rw [if_neg hk] at h
        rcases ih h with hl | hr
        · exact Or.inl hl
        · exact Or.inr (by simp [dget, hk, hr])

/-- Looking a key up after updating a different key falls through. -/
theorem dget_dset_ne {α : Type} (d : List (String × α)) (k k' : String)
    (v : α) (hne : k ≠ k') : dget (dset d k v) k' = dget d k' := by
  induction d with
  | nil => simp [dset, dget, hne]
  | cons p t ih =>
    by_cases hp : p.1 = k
    · simp only [dset, if_pos hp, dget]
      rw [if_neg hne, if_neg (fun hh => hne (hp ▸ hh))]
    · simp only [dset, if_neg hp, dget]
      by_cases hk : p.1 = k'
      · rw [if_pos hk, if_pos hk]
      · rw [if_neg hk, if_neg hk]
        exact ih

/-! ## Paths and the filesystem seen by the tools (`tools.py`, `utils.py`)

`pathlib.Path` on POSIX: parsing drops empty and `"."` components and keeps
`".."`; the operating system resolves a relative path against the process
current working directory, with `".."` stepping up (and staying at the
root).  The filesystem visible to the tool layer is modelled as explicit
data: a map from absolute paths (component lists) to file contents plus a
set of directories.  `stat().st_size` is carried as metadata on each file. -/

/-- A parsed `pathlib.Path`: absolute flag plus components
(`""` and `"."` components are dropped, as pathlib does). -/
structure PyPath where
  absolute : Bool
  parts : List String
deriving Repr, DecidableEq

/-- Model of `pathlib.Path(s)` for POSIX strings. -/
def parsePath (s : String) : PyPath :=
  { absolute := listStartsWith s.data ['/'],
    parts := ((splitChar '/' s.data).map (fun l => (⟨l⟩ : String))).filter
      (fun p => p ≠ "" && p ≠ ".") }

/-- Model of `str(path)` for a parsed path (`Path("")` and `Path(".")` print as "."). -/
def pathStr (p : PyPath) : String :=
  if p.absolute then "/" ++ joinSep "/" p.parts
  else if p.parts = [] then "." else joinSep "/" p.parts

/-- OS-level normalisation of an absolute component list: `"."` is dropped
and `".."` pops the last component (staying at the root). -/
def normalizeParts (l : List String) : List String :=
  l.foldl (fun acc c =>
    if c = "." then acc
    else if c = ".." then acc.dropLast
    else acc ++ [c]) []

/-- Resolution of a path against the current working directory, as the OS
does for every relative path handed to a syscall. -/
def resolveAgainst (cwd : List String) (p : PyPath) : List String :=
  if p.absolute then normalizeParts p.parts else normalizeParts (cwd ++ p.parts)

/-- A regular file: its text content and its `stat().st_size`. -/
structure FSFile where
  content : String
  size : Nat
deriving Repr, DecidableEq

/-- The filesystem state the tool layer operates on. -/
structure FileSystem where
  files : List (List String × FSFile)
  dirs : List (List String)
deriving Repr, DecidableEq

/-- Lookup of a regular file by absolute path. -/
def FileSystem.fileAt (fs : FileSystem) (p : List String) : Option FSFile :=
  (fs.files.find? (fun q => q.1 = p)).map (fun q => q.2)

/-- Model of `path.is_dir()` at an absolute path. -/
def FileSystem.dirAt (fs : FileSystem) (p : List String) : Bool :=
  fs.dirs.any (fun q => q = p)

/-- Model of `path.exists()` at an absolute path. -/
def FileSystem.existsAt (fs : FileSystem) (p : List String) : Bool :=
  (fs.fileAt p).isSome || fs.dirAt p

/-- Model of `path.unlink()`: remove one regular file. -/
def FileSystem.removeFile (fs : FileSystem) (p : List String) : FileSystem :=
  { fs with files := fs.files.filter (fun q => q.1 ≠ p) }

/-- Model of `shutil.rmtree(path)`: remove a directory and everything below it. -/
def FileSystem.removeTree (fs : FileSystem) (p : List String) : FileSystem :=
  { files := fs.files.filter (fun q => ¬ listStartsWith' q.1 p),
    dirs := fs.dirs.filter (fun q => ¬ listStartsWith' q p) }
where
  /-- component-list prefix test -/
  listStartsWith' (l pre : List String) : Bool :=
    l.take pre.length = pre

/-! ## `utils.py` helpers used by the tools -/

/-- The extension allow-list of `utils.is_text_file`. -/
def textExtensions : List String :=
  [".py", ".js", ".ts", ".jsx", ".tsx", ".html", ".css", ".scss", ".sass",
   ".json", ".yaml", ".yml", ".toml", ".ini", ".cfg", ".conf", ".txt",
   ".md", ".rst", ".xml", ".sql", ".sh", ".bash", ".zsh", ".fish",
   ".go", ".rs", ".java", ".cpp", ".c", ".h", ".hpp", ".cs", ".php",
   ".rb", ".swift", ".kt", ".scala", ".clj", ".hs", ".ml", ".fs",
   ".vim", ".vimrc", ".gitignore", ".dockerignore", ".env", ".env.example"]

/-- Python `c.lower()` for the ASCII range used in extensions. -/
def pyLowerChar (c : Char) : Char :=
  if 'A' ≤ c && c ≤ 'Z' then Char.ofNat (c.toNat + 32) else c

/-- Python `s.lower()`. -/
def pyLower (s : String) : String :=
  ⟨s.data.map pyLowerChar⟩

/-- Model of `PurePath.suffix`: the final extension of the last component, empty for
dotless names and for a leading-dot-only name like `".gitignore"`. -/
def pySuffix (name : String) : String :=
  match lastDotIdx name.data 0 none with
  | none => ""
  | some i => if i = 0 then "" else ⟨name.data.drop i⟩
where
  /-- index of the last `'.'`, scanning left to right -/
  lastDotIdx : List Char → Nat → Option Nat → Option Nat
    | [], _, acc => acc
    | c :: rest, i, acc =>
      lastDotIdx rest (i + 1) (if c = '.' then some i else acc)

/-- Model of `utils.get_file_extension`: `file_path.suffix.lower()`. -/
def get_file_extension (name : String) : String :=
  pyLower (pySuffix name)

/-- Model of `utils.is_text_file` on a file with known content: extension on the
allow-list, or — for a dotless name — no NUL byte in the first 1024 bytes. -/
def is_text_file (name : String) (content : String) : Bool :=
  if textExtensions.any (fun e => e = pyLower (pySuffix name)) then true
  else if pySuffix name = "" then
    ¬ (content.data.take 1024).any (fun c => c = Char.ofNat 0)
  else false

/-- Round-half-even of `num / den` to an integer (the rounding `f"{x:.1f}"`
applies to the scaled value).  Sub-tenth binary floating-point artifacts of
the Python original are not modelled. -/
def roundHalfEven (num den : Nat) : Nat :=
  let q := num / den
  let r := num % den
  if 2 * r < den then q
  else if 2 * r > den then q + 1
  else if q % 2 = 0 then q else q + 1

/-- Model of `utils.format_file_size`: divide by 1024 while at least 1024 and a unit
remains, then format with one decimal place. -/
def format_file_size (n : Nat) : String :=
  if n = 0 then "0B"
  else if n < 1024 then toString n ++ ".0B"
  else if n < 1024 * 1024 then fmt1 n 1024 "KB"
  else if n < 1024 * 1024 * 1024 then fmt1 n (1024 * 1024) "MB"
  else if n < 1024 * 1024 * 1024 * 1024 then fmt1 n (1024 * 1024 * 1024) "GB"
  else fmt1 n (1024 * 1024 * 1024 * 1024) "TB"
where
  /-- one-decimal rendering of `n / den` with the given unit -/
  fmt1 (n den : Nat) (unit : String) : String :=
    let tenths := roundHalfEven (n * 10) den
    toString (tenths / 10) ++ "." ++ toString (tenths % 10) ++ unit

/-- The marker `safe_read_file` substitutes for an oversized file. -/
def fileTooLargeMarker (size : Nat) : String :=
  "[File too large: " ++ format_file_size size ++ "]"

/-- Model of `utils.safe_read_file`: `None` when missing or not a regular file, a
bracketed marker for oversized or binary files, otherwise the content. -/
def safe_read_file (fs : FileSystem) (p : List String) (name : String)
    (maxSize : Nat) : Option String :=
  match fs.fileAt p with
  | none => none
  | some f =>
    if f.size > maxSize then some (fileTooLargeMarker f.size)
    else if ¬ is_text_file name f.content then some "[Binary file]"
    else some f.content

/-- Model of `utils.truncate_output`. -/
def truncate_output (text : String) (maxLines : Nat) : String :=
  let lines := pyLines text
  if lines.length ≤ maxLines then text
  else
    joinSep "\n" (lines.take maxLines ++
      ["... (" ++ toString (lines.length - maxLines) ++ " more lines)"])

/-! ## Tool argument values

Parsed tool arguments are either raw strings or values produced by
`json.loads`; the JSON data model is carried explicitly so that argument
dictionaries stay first-class data. -/

/-- A JSON value as `json.loads` returns it (floats are out of scope of the
claims and not modelled). -/
inductive PyJson where
  | jnull
  | jbool (b : Bool)
  | jnum (n : Int)
  | jstr (s : String)
  | jarr (elems : List PyJson)
  | jobj (fields : List (String × PyJson))

/-- One parsed argument value. -/
inductive ArgVal where
  | vstr (s : String)
  | vjson (j : PyJson)

/-- A parsed argument dictionary. -/
abbrev ArgsDict := List (String × ArgVal)

/-- Model of `raw_path.strip().strip('"').strip("'")`, the path-cleaning idiom shared
by the filesystem tools. -/
def cleanPathArg (s : String) : String :=
  ⟨pyStripChar '\'' (pyStripChar '"' (pyStripL s.data))⟩

/-- Model of `args.get("path", args.get("file_path", ""))` followed by the string
cleaning; a non-string value reaches `Path()` unchanged and raises there
(surfacing through `execute_tool` as an error string). -/
def getPathArg (args : ArgsDict) : Except String String :=
  let raw := ((dget args "path").getD ((dget args "file_path").getD
    (ArgVal.vstr "")))
  match raw with
  | ArgVal.vstr s => Except.ok (cleanPathArg s)
  | ArgVal.vjson (PyJson.jstr s) => Except.ok (cleanPathArg s)
  | _ => Except.error "TypeError: argument should be a str or an os.PathLike object"

/-! ## The filesystem tools (`ToolManager`, `tools.py`)

Each tool body is a function of the filesystem, the process current working
directory and the argument dict; a thrown exception is an `Except.error`,
which `execute_tool` converts to an error string. -/

/-- Model of `ToolManager._read_file`. -/
def readFileTool (maxOutputLines : Nat) (fs : FileSystem) (cwd : List String)
    (args : ArgsDict) : Except String String := do
  let pathArg ← getPathArg args
  let p := parsePath pathArg
  let q := resolveAgainst cwd p
  if ¬ fs.existsAt q then
    return ("File not found: " ++ pathStr p)
  if (fs.fileAt q).isNone then
    return ("Path is not a file: " ++ pathStr p)
  match safe_read_file fs q (p.parts.getLastD "") (10 * 1024 * 1024) with
  | none => return ("Could not read file: " ++ pathStr p)
  | some content =>
    let size := ((fs.fileAt q).map FSFile.size).getD 0
    let infoText := "File: " ++ pathStr p ++ "\nSize: " ++
      format_file_size size ++ "\n"
    if (pyLines content).length > maxOutputLines then
      let truncated := truncate_output content maxOutputLines
      let infoText := infoText ++ "Content truncated to " ++
        toString maxOutputLines ++ " lines\n"
      return (infoText ++ "\n" ++ truncated)
    else
      return (infoText ++ "\n" ++ content)

/-- Model of `ToolManager._delete_file`; returns the message and the new filesystem. -/
def deleteFileTool (fs : FileSystem) (cwd : List String) (args : ArgsDict) :
    Except String String × FileSystem :=
  match getPathArg args with
  | Except.error e => (Except.error e, fs)
  | Except.ok pathArg =>
    let p := parsePath pathArg
    let q := resolveAgainst cwd p
    if ¬ fs.existsAt q then
      (Except.ok ("File not found: " ++ pathStr p), fs)
    else if (fs.fileAt q).isSome then
      (Except.ok ("File deleted: " ++ pathStr p), fs.removeFile q)
    else if fs.dirAt q then
      (Except.ok ("Directory deleted: " ++ pathStr p), fs.removeTree q)
    else
      (Except.ok ("Unknown file type: " ++ pathStr p), fs)

/-- Outcome of the `subprocess.run` call inside `_run_command`: normal
completion, `subprocess.TimeoutExpired`, or any other exception. -/
inductive ProcOutcome where
  | completed (stdout stderr : String) (exitCode : Int)
  | timedOut
  | raised (msg : String)

/-- Holds (as `true`) on the timeout and exception outcomes, where control
jumps to an `except` clause before `os.chdir(original_dir)` runs. -/
def ProcOutcome.abnormal : ProcOutcome → Bool
  | ProcOutcome.completed _ _ _ => false
  | ProcOutcome.timedOut => true
  | ProcOutcome.raised _ => true

/-- Mutable process state the tools share: the current working directory
(changed by `os.chdir`, consulted by every relative-path syscall). -/
structure ExecState where
  cwd : List String
deriving Repr, DecidableEq

/-- Model of `ToolManager._run_command`.  The subprocess itself is an oracle
(`outcome`); the directory change and its (non-)restoration are explicit.
Non-string `command`/`directory` argument values (which would raise inside
the same `try`) are outside the claims and read as absent here. -/
def runCommandTool (fs : FileSystem) (args : ArgsDict) (outcome : ProcOutcome)
    (st : ExecState) : String × ExecState :=
  let command := match dget args "command" with
    | some (ArgVal.vstr s) => s
    | _ => ""
  let directory := match dget args "directory" with
    | some (ArgVal.vstr s) => s
    | _ => "."
  if command = "" then ("Error: No command provided", st)
  else
    let originalDir := st.cwd
    let target := resolveAgainst st.cwd (parsePath directory)
    let st1 := if fs.existsAt target && fs.dirAt target then
      { st with cwd := target } else st
    match outcome with
    | ProcOutcome.completed out err code =>
      let st2 := { st1 with cwd := originalDir }
      let output :=
        (if out ≠ "" then "STDOUT:\n" ++ out ++ "\n" else "") ++
        (if err ≠ "" then "STDERR:\n" ++ err ++ "\n" else "") ++
        (if code ≠ 0 then "Exit code: " ++ toString code ++ "\n" else "")
      (if output = "" then "Command executed successfully (no output)"
       else output, st2)
    | ProcOutcome.timedOut =>
      ("Command timed out after 30 seconds", st1)
    | ProcOutcome.raised m =>
      ("Error executing command: " ++ m, st1)

/-! ## Session store (`chat_manager.py`) -/

/-- Model of `ChatMessage`: immutable once appended. -/
structure ChatMessage where
  role : String
  content : String
  timestamp : String
  tokens_used : Nat
deriving Repr, DecidableEq

/-- Model of `ChatSession`. -/
structure ChatSession where
  id : String
  title : String
  created_at : String
  last_modified : String
  messages : List ChatMessage
  total_tokens : Nat
deriving Repr, DecidableEq

/-- Model of `ChatManager.create_new_chat` (timestamps supplied by the clock). -/
def create_new_chat (chatId title now : String) : ChatSession :=
  { id := chatId, title := title, created_at := now, last_modified := now,
    messages := [], total_tokens := 0 }

/-- Model of `ChatManager.add_message` on the current chat: appends the message and
adds its `tokens_used` to `total_tokens` in the same step. -/
def add_message (s : ChatSession) (role content : String) (tokens_used : Nat)
    (now : String) : ChatSession :=
  { s with
    messages := s.messages ++
      [{ role := role, content := content, timestamp := now,
         tokens_used := tokens_used }],
    total_tokens := s.total_tokens + tokens_used }

/-- The serialized form `save_chat` writes: one JSON record keyed by id,
with the messages as (role, content, timestamp, tokens_used) rows. -/
structure ChatRecord where
  id : String
  title : String
  created_at : String
  last_modified : String
  total_tokens : Nat
  messages : List (String × String × String × Nat)
deriving Repr, DecidableEq

/-- The record `ChatManager.save_chat` builds (it stamps `last_modified`
with the current time first). -/
def save_chat_record (chat : ChatSession) (now : String) : ChatRecord :=
  { id := chat.id, title := chat.title, created_at := chat.created_at,
    last_modified := now, total_tokens := chat.total_tokens,
    messages := chat.messages.map (fun m =>
      (m.role, m.content, m.timestamp, m.tokens_used)) }

/-- Model of `ChatManager.save_chat`: writes the full record into the per-id store. -/
def save_chat (store : List (String × ChatRecord)) (chat : ChatSession)
    (now : String) : List (String × ChatRecord) :=
  dset store chat.id (save_chat_record chat now)

/-- The session `ChatManager.load_chat` reconstructs from a record. -/
def load_chat_record (r : ChatRecord) : ChatSession :=
  { id := r.id, title := r.title, created_at := r.created_at,
    last_modified := r.last_modified,
    messages := r.messages.map (fun m =>
      { role := m.1, content := m.2.1, timestamp := m.2.2.1,
        tokens_used := m.2.2.2 }),
    total_tokens := r.total_tokens }

/-- Model of `ChatManager.load_chat`: `None` when no record exists for the id. -/
def load_chat (store : List (String × ChatRecord)) (chatId : String) :
    Option ChatSession :=
  (dget store chatId).map load_chat_record

/-! ## Model calls (`chat.py`)

The HTTP transport is an oracle: a network failure (`aiohttp.ClientError`)
or a response with a status and a body.  A streaming body is the raw text
iterated line by line; a non-streaming body additionally carries the result
of `response.json()`.  `json.loads` on stream frames is a parameter `jp`
returning the fields the code reads (`choices[0].delta.content`). -/

/-- A stream frame as the aggregator sees it after `json.loads`:
`delta.content` when present.  An absent or empty `choices`, an absent
`delta` and an absent `content` are all `none` at the matching level. -/
structure SDelta where
  content : Option String

/-- Model of `choices[0].delta` of a stream frame. -/
structure SChoice where
  delta : Option SDelta

/-- One decoded stream frame. -/
structure Frame where
  choices : List SChoice

/-- HTTP outcome of the streaming POST. -/
inductive StreamHttp where
  | netError (msg : String)
  | response (status : Nat) (body : String)

/-- Model of `usage` of a non-streaming response. -/
structure Usage where
  total_tokens : Option Nat

/-- Model of `choices[0].message` of a non-streaming response. -/
structure NSMessage where
  content : Option String

/-- One choice of a non-streaming response. -/
structure NSChoice where
  message : Option NSMessage

/-- A decoded non-streaming response body. -/
structure NSResponse where
  choices : Option (List NSChoice)
  usage : Option Usage

/-- HTTP outcome of the non-streaming POST; `json` is the result of
`response.json()` (`Except.error` = `json.JSONDecodeError`). -/
inductive ApiHttp where
  | netError (msg : String)
  | response (status : Nat) (raw : String) (json : Except String NSResponse)

/-- The `data: ` frame prefix. -/
def dataColonSpace : List Char := [ 'd', 'a', 't', 'a', ':', ' ' ]

/-- The body of the streaming loop in
`_make_streaming_api_call_with_tokens`: strip each line, keep `data: `
frames, stop at `[DONE]`, skip undecodable frames and frames without
`choices[0].delta.content`, and accumulate text and a per-fragment count. -/
def processLines (jp : String → Option Frame) : List String → String × Nat
  | [] => ("", 0)
  | line :: rest =>
    let l := pyStripL line.data
    if listStartsWith l dataColonSpace then
      let dataStr : String := ⟨l.drop 6⟩
      if dataStr = "[DONE]" then ("", 0)
      else
        match jp dataStr with
        | none => processLines jp rest
        | some frame =>
          match frame.choices with
          | [] => processLines jp rest
          | choice :: _ =>
            match choice.delta with
            | none => processLines jp rest
            | some delta =>
              match delta.content with
              | none => processLines jp rest
              | some content =>
                let (r, t) := processLines jp rest
                (content ++ r, t + 1)
    else processLines jp rest

/-- The ordered content fragments received before the `[DONE]` sentinel. -/
def contentFragments (jp : String → Option Frame) : List String → List String
  | [] => []
  | line :: rest =>
    let l := pyStripL line.data
    if listStartsWith l dataColonSpace then
      let dataStr : String := ⟨l.drop 6⟩
      if dataStr = "[DONE]" then []
      else
        match (jp dataStr).bind (fun f => f.choices.head?) with
        | none => contentFragments jp rest
        | some choice =>
          match choice.delta.bind SDelta.content with
          | none => contentFragments jp rest
          | some content => content :: contentFragments jp rest
    else contentFragments jp rest

/-- Model of `ChatInterface._make_streaming_api_call_with_tokens`: a non-success
status raises `API error …`, rewrapped by the generic handler as
`Streaming error: …`; a transport failure raises `Network error: …`. -/
def make_streaming_api_call_with_tokens (jp : String → Option Frame)
    (http : StreamHttp) : Except String (String × Nat) :=
  match http with
  | StreamHttp.netError m => Except.error ("Network error: " ++ m)
  | StreamHttp.response status body =>
    if status = 200 then
      Except.ok (processLines jp (pyLines body))
    else
      Except.error ("Streaming error: API error " ++ toString status ++ ": "
        ++ body)

/-- Model of `ChatInterface._make_api_call_with_tokens`: validates the response
shape, extracts `usage.total_tokens` when present (0 otherwise). -/
def make_api_call_with_tokens (http : ApiHttp) :
    Except String (String × Nat) :=
  match http with
  | ApiHttp.netError m => Except.error ("Network error: " ++ m)
  | ApiHttp.response status raw json =>
    if status = 200 then
      match json with
      | Except.error e => Except.error ("Invalid JSON response: " ++ e)
      | Except.ok data =>
        match data.choices with
        | none =>
          Except.error "Invalid API response: missing choices field"
        | some [] =>
          Except.error "Invalid API response: empty choices array"
        | some (choice :: _) =>
          match choice.message with
          | none =>
            Except.error "Invalid API response: missing message field in choice"
          | some msg =>
            match msg.content with
            | none =>
              Except.error
                "Invalid API response: missing content field in message"
            | some content =>
              let tokenCount := match data.usage with
                | some u => match u.total_tokens with
                  | some t => t
                  | none => 0
                | none => 0
              Except.ok (content, tokenCount)
    else
      Except.error ("API error " ++ toString status ++ ": " ++ raw)

/-- Model of `ChatInterface.get_ai_response_with_tokens`, after `_prepare_request`:
try the streaming call; on any exception fall back once to the
non-streaming call; an exception of the fallback is rewrapped by the outer
handler and re-raised.  The second component counts how many times the
non-streaming fallback was invoked. -/
def get_ai_response_with_tokens (jp : String → Option Frame)
    (streamHttp : StreamHttp) (fallbackHttp : ApiHttp) :
    Except String (String × Nat) × Nat :=
  match make_streaming_api_call_with_tokens jp streamHttp with
  | Except.ok r => (Except.ok r, 0)
  | Except.error _ =>
    match make_api_call_with_tokens fallbackHttp with
    | Except.ok r => (Except.ok r, 1)
    | Except.error e =>
      (Except.error ("Error getting AI response: " ++ e), 1)

/-! ## Tool-call parser (`chat.py`)

`parse_tools` finds blocks with
`re.findall(r"(three backticks)tool\s*\n(.*?)\n(three backticks)", response, re.DOTALL)`
and parses each one.  The regex is modelled directly: at each occurrence of
the opening literal, a greedy-then-backtracked whitespace run must contain a
newline; the lazy capture ends at the first following close fence.  The only
extra backtracking case a Python engine explores is an all-whitespace
capture ending right at a close fence that directly abuts the whitespace
run; both cases are implemented and were checked against `re`. -/

/-- The opening literal of a tool block. -/
def openTok : List Char := [ '`', '`', '`', 't', 'o', 'o', 'l' ]

/-- The closing delimiter `"\n(three backticks)"`. -/
def closeTok : List Char := [ '\n', '`', '`', '`' ]

/-- Index (0-based) of the last `'\n'` in a list, if any. -/
def lastNlIdx (l : List Char) : Option Nat :=
  go l 0 none
where
  go : List Char → Nat → Option Nat → Option Nat
    | [], _, acc => acc
    | c :: rest, i, acc => go rest (i + 1) (if c = '\n' then some i else acc)

/-- All block captures of the tool-fence regex, leftmost first,
non-overlapping.  `fuel` only bounds the recursion; `findToolBlocks`
supplies enough for any input. -/
def findBlocksAux (jpFuel : Nat) (s : List Char) : List (List Char) :=
  match jpFuel with
  | 0 => []
  | fuel + 1 =>
    match breakOnSub openTok s with
    | none => []
    | some (_, rest) =>
      let run := rest.takeWhile pySpace
      let tail := rest.drop run.length
      match lastNlIdx run with
      | none => findBlocksAux fuel rest
      | some nl =>
        let afterNl := rest.drop (nl + 1)
        match breakOnSub closeTok afterNl with
        | some (content, after) => content :: findBlocksAux fuel after
        | none =>
          -- backtrack `\s*` to the previous newline: only fruitful when the
          -- run ends in `'\n'` and the close fence's backticks abut it
          if nl + 1 = run.length && listStartsWith tail ['`', '`', '`'] then
            match lastNlIdx (run.take nl) with
            | some nl2 =>
              ((rest.drop (nl2 + 1)).take (nl - nl2 - 1)) ::
                findBlocksAux fuel (tail.drop 3)
            | none => findBlocksAux fuel rest
          else findBlocksAux fuel rest

/-- The ordered tool-block captures of a response text. -/
def findToolBlocks (s : List Char) : List (List Char) :=
  findBlocksAux (s.length + 1) s

/-- Python truthiness plus string check for one parsed line: the key and
value of a stripped non-empty line containing `':'`. -/
def lineKV (line : String) : Option (String × String) :=
  let l := pyStripL line.data
  if l = [] then none
  else
    match splitFirst ':' l with
    | none => none
    | some (k, v) => some (⟨pyStripL k⟩, ⟨pyStripL v⟩)

/-- The key a line assigns, when it assigns one. -/
def lineKey (line : String) : Option String :=
  (lineKV line).map (fun p => p.1)

/-- The value-cleaning step of `_parse_args`: surrounding double quotes, or
else surrounding single quotes, are removed (one layer). -/
def stripArgQuotes (s : String) : String :=
  let l := s.data
  if listStartsWith l ['"'] && l.getLast? = some '"' then
    ⟨(l.drop 1).dropLast⟩
  else if listStartsWith l ['\''] && l.getLast? = some '\'' then
    ⟨(l.drop 1).dropLast⟩
  else s

/-- One line of `ChatInterface._parse_args`: skip blanks and `#` comments,
split on the first `':'`, strip quotes, try `json.loads` (`jp`), fall back
to the raw string.  Assignment is last-wins. -/
def parseArgLine (jp : String → Option PyJson) (d : ArgsDict) (line : String) :
    ArgsDict :=
  let l := pyStripL line.data
  if l = [] then d
  else if listStartsWith l ['#'] then d
  else
    match splitFirst ':' l with
    | none => d
    | some (k, v) =>
      let key : String := ⟨pyStripL k⟩
      let value := stripArgQuotes ⟨pyStripL v⟩
      match jp value with
      | some j => dset d key (ArgVal.vjson j)
      | none => dset d key (ArgVal.vstr value)

/-- Model of `ChatInterface._parse_args`. -/
def parse_args (jp : String → Option PyJson) (argsStr : String) : ArgsDict :=
  (pyLines argsStr).foldl (parseArgLine jp) []

/-- Parser state while folding over the lines of one block: the `name`
binding and the `args` dict (absence of the `"args"` key is significant). -/
structure BlockState where
  name : Option String
  args : Option ArgsDict

/-- One line of `ChatInterface._parse_tool_block`'s loop: `name:` sets the
name, `args:` replaces the whole args dict with the parse of its inline
value, and any other `key: value` line is merged into args (creating the
dict if needed). -/
def parseBlockLine (jp : String → Option PyJson) (st : BlockState)
    (line : String) : BlockState :=
  let l := pyStripL line.data
  if l = [] then st
  else
    match splitFirst ':' l with
    | none => st
    | some (k, v) =>
      let key : String := ⟨pyStripL k⟩
      let value : String := ⟨pyStripL v⟩
      if key = "name" then { st with name := some value }
      else if key = "args" then { st with args := some (parse_args jp value) }
      else
        let d := st.args.getD []
        { st with args := some (dset d key (ArgVal.vstr value)) }

/-- A parsed `ToolInvocation`; `args` is `none` when the block set no
argument at all (`"args" not in tool_data`). -/
structure ToolCall where
  name : String
  args : Option ArgsDict

/-- The `search_content` compatibility fix-up at the end of
`_parse_tool_block`: `pattern` is copied to a missing `query` and then reset
to `"*"`. -/
def fixSearchContent (t : ToolCall) : ToolCall :=
  if t.name = "search_content" then
    match t.args with
    | none => t
    | some d =>
      if (dget d "pattern").isSome && (dget d "query").isNone then
        let d := dset d "query" ((dget d "pattern").getD (ArgVal.vstr ""))
        let d := dset d "pattern" (ArgVal.vstr "*")
        { t with args := some d }
      else t
  else t

/-- Model of `ChatInterface._parse_tool_block` on the lines of a stripped block. -/
def parseBlockLines (jp : String → Option PyJson) (lines : List String) :
    Option ToolCall :=
  let st := lines.foldl (parseBlockLine jp) { name := none, args := none }
  match st.name with
  | none => none
  | some n => some (fixSearchContent { name := n, args := st.args })

/-- Model of `ChatInterface._parse_tool_block` on a raw block capture. -/
def parse_tool_block (jp : String → Option PyJson) (block : List Char) :
    Option ToolCall :=
  parseBlockLines jp ((splitChar '\n' (pyStripL block)).map (fun l => ⟨l⟩))

/-- Model of `ChatInterface.parse_tools`: every block capture of the response, in
source order, kept when its parse produced an invocation. -/
def parse_tools (jp : String → Option PyJson) (response : String) :
    List ToolCall :=
  (findToolBlocks response.data).filterMap (parse_tool_block jp)

/-- Whether any line of the (stripped, split) block assigns the `name` key —
the condition for `_parse_tool_block` to keep the block. -/
def blockHasName (block : List Char) : Bool :=
  ((splitChar '\n' (pyStripL block)).map (fun l => (⟨l⟩ : String))).any
    (fun l => lineKey l = some "name")

/-! ## Orchestration loop slice (`core.py`) -/

/-- Model of `PointerCLI._confirm_tool_execution`: an empty batch needs no
confirmation; otherwise the user's y/n answer decides. -/
def confirm_tool_execution (tools : List ToolCall) (answer : Bool) : Bool :=
  if tools.isEmpty then true else answer

/-- External inputs of one turn: the user message, the outcome of the first
model call, the user's confirmation answers, and the outcome of the
follow-up model call. -/
structure TurnInput where
  message : String
  firstResp : Except String (String × Nat)
  confirmFirst : Bool
  followupResp : Except String (String × Nat)
  confirmFollowup : Bool

/-- Observable outcome of `_process_user_message`: the capability calls
made (with results), whether a follow-up model turn began, and the session
state. -/
structure TurnResult where
  executedTools : List (ToolCall × String)
  followupStarted : Bool
  session : ChatSession

/-- Model of `PointerCLI._process_user_message`, with model calls and tool execution
as oracles (`runTool` is `ToolManager.execute_tool`, exceptions already
converted to error strings).  Declining the confirmation in manual mode
returns before any execution; a declined follow-up batch likewise. -/
def process_user_message (jp : String → Option PyJson) (autoRunMode : Bool)
    (runTool : ToolCall → String) (inp : TurnInput) (session : ChatSession)
    (now : String) : TurnResult :=
  let session := add_message session "user" inp.message 0 now
  match inp.firstResp with
  | Except.error _ => -- surfaced by the enclosing handler; turn aborted
    { executedTools := [], followupStarted := false, session := session }
  | Except.ok (aiResponse, tokensUsed) =>
    let session := add_message session "assistant" aiResponse tokensUsed now
    let toolsToExecute := parse_tools jp aiResponse
    if toolsToExecute.isEmpty then
      { executedTools := [], followupStarted := false, session := session }
    else if ¬ autoRunMode &&
        ¬ confirm_tool_execution toolsToExecute inp.confirmFirst then
      -- "Tool execution cancelled by user."
      { executedTools := [], followupStarted := false, session := session }
    else
      let executed := toolsToExecute.map (fun t => (t, runTool t))
      match inp.followupResp with
      | Except.error _ =>
        { executedTools := executed, followupStarted := true,
          session := session }
      | Except.ok (followupResponse, _) =>
        let followupTools := parse_tools jp followupResponse
        if followupTools.isEmpty then
          { executedTools := executed, followupStarted := true,
            session := session }
        else if ¬ autoRunMode &&
            ¬ confirm_tool_execution followupTools inp.confirmFollowup then
          { executedTools := executed, followupStarted := true,
            session := session }
        else
          { executedTools := executed ++
              followupTools.map (fun t => (t, runTool t)),
            followupStarted := true, session := session }

/-! ## Codebase context cache (`codebase_context.py`)

The workspace is a finite tree; directory iteration order is the child list
order.  `fnmatch.fnmatch` is a parameter `fnm`; `_should_exclude` also
tests raw substring containment.  A `denied` directory models a
`PermissionError` from `iterdir` (skipped without failing the refresh). -/

mutual
/-- A node of the workspace tree: a regular file (with `stat` metadata and
content) or a directory. -/
inductive FSTree where
  | file (name : String) (size : Nat) (content : String) (mtime : Nat)
  | dir (name : String) (entries : FSForest) (denied : Bool)

/-- Children of a directory, in iteration order. -/
inductive FSForest where
  | nil
  | cons (head : FSTree) (tail : FSForest)
end

/-- The `config.codebase` fields the cache reads. -/
structure CodebaseConfig where
  context_depth : Nat
  exclude_patterns : List String
  context_file_types : List String

/-- Model of `CodebaseContext._should_exclude`: `fnmatch` match or raw substring
containment of any configured pattern in the full path string. -/
def should_exclude (fnm : String → String → Bool) (patterns : List String)
    (pathStr : String) : Bool :=
  patterns.any (fun pat => fnm pathStr pat || substrIn pat.data pathStr.data)

/-- One cache entry (`CodebaseFile`). -/
structure CodebaseFile where
  path : String
  relative_path : String
  name : String
  extension : String
  size : Nat
  size_formatted : String
  modified : Nat
  is_text : Bool
  content_preview : String
  lines : Nat
deriving Repr, DecidableEq

/-- The context cache: relative path string to entry. -/
abbrev Cache := List (String × CodebaseFile)

/-- Model of `CodebaseContext._add_file_to_context`: skip disallowed extensions and
non-text files; read at most 10KB (an oversized file yields the bracketed
marker instead of content), record a 500-character preview and the line
count, and store under the relative path. -/
def add_file_to_context (cfg : CodebaseConfig) (pathString relPathString
    name : String) (size : Nat) (content : String) (mtime : Nat)
    (cache : Cache) : Cache :=
  if ¬ cfg.context_file_types.any (fun e => e = pyLower (pySuffix name)) then
    cache
  else if ¬ is_text_file name content then cache
  else
    let contentRead :=
      if size > 10 * 1024 then fileTooLargeMarker size
      else if ¬ is_text_file name content then "[Binary file]"
      else content
    let contentPreview :=
      if contentRead ≠ "" then (⟨contentRead.data.take 500⟩ : String) else ""
    let lineCount :=
      if contentRead ≠ "" then (splitChar '\n' contentRead.data).length else 0
    let entry : CodebaseFile :=
      { path := pathString, relative_path := relPathString, name := name,
        extension := pyLower (pySuffix name), size := size,
        size_formatted := format_file_size size, modified := mtime,
        is_text := is_text_file name content,
        content_preview := contentPreview, lines := lineCount }
    dset cache relPathString entry

mutual
/-- Model of `CodebaseContext._scan_directory` on one directory node: give up past
the depth limit or on a permission error, otherwise fold over the children.
`absPath`/`relParts` are the directory's absolute path string and its path
relative to the project root. -/
def scan_directory (cfg : CodebaseConfig) (fnm : String → String → Bool)
    (depth : Nat) (absPath : String) (relParts : List String)
    (cache : Cache) : FSTree → Cache
  | FSTree.file _ _ _ _ => cache
  | FSTree.dir _ entries denied =>
    if denied then cache
    else if depth > cfg.context_depth then cache
    else scanItems cfg fnm depth absPath relParts cache entries

/-- The `for item in directory.iterdir()` loop. -/
def scanItems (cfg : CodebaseConfig) (fnm : String → String → Bool)
    (depth : Nat) (absPath : String) (relParts : List String)
    (cache : Cache) : FSForest → Cache
  | FSForest.nil => cache
  | FSForest.cons item rest =>
    let itemName := match item with
      | FSTree.file n _ _ _ => n
      | FSTree.dir n _ _ => n
    let itemPath := absPath ++ "/" ++ itemName
    let cache1 :=
      if should_exclude fnm cfg.exclude_patterns itemPath then cache
      else
        match item with
        | FSTree.file n size content mtime =>
          add_file_to_context cfg itemPath
            (joinSep "/" (relParts ++ [n])) n size content mtime cache
        | FSTree.dir _ _ _ =>
          if depth < cfg.context_depth then
            scan_directory cfg fnm (depth + 1) itemPath
              (relParts ++ [itemName]) cache item
          else cache
    scanItems cfg fnm depth absPath relParts cache1 rest
end

/-- Model of `CodebaseContext._refresh_context` with a known project root: clear the
cache and rescan the whole tree from depth 0. -/
def refresh_context (cfg : CodebaseConfig) (fnm : String → String → Bool)
    (rootPath : String) (root : FSTree) : Cache :=
  scan_directory cfg fnm 0 rootPath [] [] root

/-! # Theorems about the claims -/

/-! ## C7 — session token-total invariant -/

/-- A sequence of appends to the current chat: role, content, tokens, time
of each `add_message` call. -/
def apply_appends (s : ChatSession)
    (apps : List (String × String × Nat × String)) : ChatSession :=
  apps.foldl (fun s a => add_message s a.1 a.2.1 a.2.2.1 a.2.2.2) s

/-- The token-total bookkeeping invariant. -/
def tokensConsistent (s : ChatSession) : Prop :=
  s.total_tokens = (s.messages.map ChatMessage.tokens_used).sum

theorem add_message_tokensConsistent (s : ChatSession) (role content : String)
    (tokens : Nat) (now : String) (h : tokensConsistent s) :
    tokensConsistent (add_message s role content tokens now) := by
  unfold tokensConsistent add_message at *
  simp [h]

theorem apply_appends_tokensConsistent (s : ChatSession)
    (apps : List (String × String × Nat × String)) (h : tokensConsistent s) :
    tokensConsistent (apply_appends s apps) := by
  induction apps generalizing s with
  | nil => exact h
  | cons a t ih =>
    exact ih _ (add_message_tokensConsistent s a.1 a.2.1 a.2.2.1 a.2.2.2 h)

/-- C7: a session created by `create_new_chat` and mutated only through
`add_message` always has `total_tokens` equal to the sum of `tokens_used`
over its messages — in particular after every prefix of any append
sequence, since the statement quantifies over all sequences. -/
theorem c7_total_tokens_invariant (chatId title now : String)
    (apps : List (String × String × Nat × String)) :
    (apply_appends (create_new_chat chatId title now) apps).total_tokens =
      ((apply_appends (create_new_chat chatId title now) apps).messages.map
        ChatMessage.tokens_used).sum :=
  apply_appends_tokensConsistent (create_new_chat chatId title now) apps
    (by unfold tokensConsistent create_new_chat; simp)

/-! ## C8 — save/load round trip -/

theorem load_save_record (chat : ChatSession) (now : String) :
    load_chat_record (save_chat_record chat now) =
      { chat with last_modified := now } := by
  unfold load_chat_record save_chat_record
  congr 1
  induction chat.messages with
  | nil => rfl
  | cons m t ih => simpa using ih

/-- C8: saving a session and loading it back by its id reproduces the
identical ordered message sequence (roles, contents, timestamps,
`tokens_used`, in order) and the identical `total_tokens`; only
`last_modified` is re-stamped by `save_chat`. -/
theorem c8_save_load_roundtrip (store : List (String × ChatRecord))
    (chat : ChatSession) (now : String) :
    load_chat (save_chat store chat now) chat.id =
      some { chat with last_modified := now } := by
  unfold load_chat save_chat
  rw [dget_dset_self]
  simp [load_save_record]

/-! ## C2 — exactly one fallback on streaming failure -/

/-- C2: when the primary streaming call fails (non-success status or
network error, i.e. any `Except.error`), exactly one non-streaming fallback
call is made and the turn's outcome is the fallback's: its content and
tokens on success, its error (rewrapped by the outer handler) on failure.
When the streaming call succeeds, no fallback call is made. -/
theorem c2_fallback_once (jp : String → Option Frame) (sh : StreamHttp)
    (fh : ApiHttp) :
    (∀ r, make_streaming_api_call_with_tokens jp sh = Except.ok r →
      get_ai_response_with_tokens jp sh fh = (Except.ok r, 0)) ∧
    (∀ e, make_streaming_api_call_with_tokens jp sh = Except.error e →
      get_ai_response_with_tokens jp sh fh =
        (match make_api_call_with_tokens fh with
         | Except.ok r => Except.ok r
         | Except.error e2 =>
           Except.error ("Error getting AI response: " ++ e2), 1)) := by
  constructor
  · intro r h
    unfold get_ai_response_with_tokens
    rw [h]
  · intro e h
    unfold get_ai_response_with_tokens
    rw [h]
    cases hf : make_api_call_with_tokens fh <;> simp [hf]

/-- The non-streaming fallback response used by the C2 witness:
status 200 with `choices[0].message.content = "All good"`, no usage. -/
def c2FallbackHttp : ApiHttp :=
  ApiHttp.response 200 "raw-body"
    (Except.ok
      { choices := some [{ message := some { content := some "All good" } }],
        usage := none })

/-- A frame decoder that decodes nothing (all frames malformed). -/
def noFrame : String → Option Frame := fun _ => none

theorem c2_fallback_once_witness :
    get_ai_response_with_tokens noFrame (StreamHttp.response 500 "boom")
      c2FallbackHttp = (Except.ok ("All good", 0), 1) := by
  have h := (c2_fallback_once noFrame (StreamHttp.response 500 "boom")
    c2FallbackHttp).2 ("Streaming error: API error 500: boom") rfl
  rw [h]
  rfl

/-! ## C3 — token counting -/

/-- C3: a successful streaming call reports one token per received content
fragment; a successful non-streaming call reports the authoritative
`usage.total_tokens` figure whenever the response supplies one (and 0 when
it does not), that figure taking precedence over any per-fragment count. -/
theorem c3_token_count :
    (∀ (jp : String → Option Frame) (body : String) (out : String × Nat),
      make_streaming_api_call_with_tokens jp (StreamHttp.response 200 body) =
        Except.ok out →
      out.2 = (contentFragments jp (pyLines body)).length) ∧
    (∀ (raw : String) (js : NSResponse) (out : String × Nat),
      make_api_call_with_tokens (ApiHttp.response 200 raw (Except.ok js)) =
        Except.ok out →
      out.2 = ((js.usage.bind Usage.total_tokens).getD 0)) := by
  constructor
  · intro jp body out h
    unfold make_streaming_api_call_with_tokens at h
    simp only [if_pos rfl] at h
    have hout : out = processLines jp (pyLines body) := by
      cases h; rfl
    subst hout
    generalize pyLines body = lines
    induction lines with
    | nil => rfl
    | cons line rest ih =>
      unfold processLines contentFragments
      by_cases hd : listStartsWith (pyStripL line.data) dataColonSpace
      · simp only [hd, if_pos]
        by_cases hdone : (⟨(pyStripL line.data).drop 6⟩ : String) = "[DONE]"
        · simp [hdone]
        · simp only [hdone, if_neg, Bool.false_eq_true, not_false_iff]
          cases hjp : jp ⟨(pyStripL line.data).drop 6⟩ with
          | none => simpa [hjp] using ih
          | some frame =>
            cases hch : frame.choices with
            | nil => simpa [hjp, hch] using ih
            | cons choice _ =>
              cases hde : choice.delta with
              | none => simpa [hjp, hch, hde] using ih
              | some delta =>
                cases hco : delta.content with
                | none => simpa [hjp, hch, hde, hco] using ih
                | some content =>
                  simpa [hjp, hch, hde, hco] using congrArg Nat.succ ih
      · simp only [hd, if_neg, Bool.false_eq_true, not_false_iff]
        exact ih
  · intro raw js out h
    obtain ⟨choicesField, usageField⟩ := js
    unfold make_api_call_with_tokens at h
    simp only [reduceIte] at h
    cases choicesField with
    | none => exact absurd h (by simp)
    | some cs =>
      cases cs with
      | nil => exact absurd h (by simp)
      | cons choice rest =>
        obtain ⟨msgField⟩ := choice
        cases msgField with
        | none => exact absurd h (by simp)
        | some msg =>
          obtain ⟨contentField⟩ := msg
          cases contentField with
          | none => exact absurd h (by simp)
          | some content =>
            cases usageField with
            | none => cases h; rfl
            | some u =>
              obtain ⟨ttField⟩ := u
              cases ttField with
              | none => cases h; rfl
              | some t => cases h; rfl

/-- The stream body used by the C3 witness: two decodable content frames,
one malformed frame, one non-`data:` line, a `[DONE]` sentinel, and a frame
after the sentinel that must not be counted. -/
def c3StreamBody : String :=
  "data: f1\n\njunk\ndata: bad\ndata: f2\ndata: [DONE]\ndata: f3"

/-- The frame decoder for the C3 witness. -/
def c3FrameOracle : String → Option Frame := fun s =>
  if s = "f1" then
    some { choices := [{ delta := some { content := some "Hel" } }] }
  else if s = "f2" then
    some { choices := [{ delta := some { content := some "lo" } }] }
  else if s = "f3" then
    some { choices := [{ delta := some { content := some "XX" } }] }
  else none

/-- The non-streaming response for the C3 witness: content `"hi"` and an
authoritative `usage.total_tokens = 42`. -/
def c3UsageResponse : NSResponse :=
  { choices := some [{ message := some { content := some "hi" } }],
    usage := some { total_tokens := some 42 } }

theorem c3_token_count_witness :
    ((2 : Nat) =
      (contentFragments c3FrameOracle (pyLines c3StreamBody)).length) ∧
    ((42 : Nat) = ((c3UsageResponse.usage.bind Usage.total_tokens).getD 0)) :=
  ⟨c3_token_count.1 c3FrameOracle c3StreamBody ("Hello", 2) rfl,
   c3_token_count.2 "raw" c3UsageResponse ("hi", 42) rfl⟩

/-! ## C10 — working directory not restored after subprocess failure -/

/-- C10: when `run_command` changes into an existing requested directory
and the subprocess then times out or raises, control jumps to an `except`
clause before `os.chdir(original_dir)` runs, so the process working
directory stays the changed one — and every subsequent tool invocation
(here `_read_file`) resolves relative paths against the changed
directory. -/
theorem c10_cwd_not_restored (fs : FileSystem) (args : ArgsDict)
    (st : ExecState) (outcome : ProcOutcome) (cmd dir : String)
    (hcmd : dget args "command" = some (ArgVal.vstr cmd))
    (hcmdne : cmd ≠ "")
    (hdir : dget args "directory" = some (ArgVal.vstr dir))
    (hex : fs.existsAt (resolveAgainst st.cwd (parsePath dir)) = true)
    (hisdir : fs.dirAt (resolveAgainst st.cwd (parsePath dir)) = true)
    (habn : outcome.abnormal = true) :
    (runCommandTool fs args outcome st).2.cwd =
      resolveAgainst st.cwd (parsePath dir) ∧
    (∀ maxL args2,
      readFileTool maxL fs ((runCommandTool fs args outcome st).2.cwd) args2 =
        readFileTool maxL fs (resolveAgainst st.cwd (parsePath dir)) args2) := by
  have hcwd : (runCommandTool fs args outcome st).2.cwd =
      resolveAgainst st.cwd (parsePath dir) := by
    unfold runCommandTool
    rw [hcmd, hdir]
    simp only [if_neg hcmdne]
    rw [hex, hisdir]
    cases outcome with
    | completed out err code => simp [ProcOutcome.abnormal] at habn
    | timedOut => rfl
    | raised m => rfl
  exact ⟨hcwd, fun maxL args2 => by rw [hcwd]⟩

/-- The filesystem for the C10 witness: a workspace `/ws` with a
subdirectory `/ws/sub`. -/
def c10Fs : FileSystem :=
  { files := [], dirs := [["ws"], ["ws", "sub"]] }

/-- The arguments of the C10 witness `run_command` invocation. -/
def c10Args : ArgsDict :=
  [("command", ArgVal.vstr "ls"), ("directory", ArgVal.vstr "sub")]

theorem c10_cwd_not_restored_witness :
    (runCommandTool c10Fs c10Args ProcOutcome.timedOut
        { cwd := ["ws"] }).2.cwd = ["ws", "sub"] ∧
    (["ws", "sub"] : List String) ≠ ["ws"] :=
  ⟨(c10_cwd_not_restored c10Fs c10Args { cwd := ["ws"] } ProcOutcome.timedOut
      "ls" "sub" rfl (by decide) rfl (by decide) (by decide) rfl).1,
   by decide⟩

/-! ## C1 — no workspace-root containment in the filesystem tools -/

/-- The filesystem of the C1 scenario: the process runs inside the
workspace root `/ws`, and `/outside.txt` (content `"secret"`) lies outside
it. -/
def c1Fs : FileSystem :=
  { files := [(["outside.txt"], { content := "secret", size := 6 })],
    dirs := [[], ["ws"]] }

/-- The argument dict `{"path": "../outside.txt"}`. -/
def c1Args : ArgsDict := [("path", ArgVal.vstr "../outside.txt")]

/-- C1 refutation: with the working directory at the workspace root `/ws`,
the argument `"../outside.txt"` resolves to a path outside the root, yet
`_delete_file` deletes that outside file and reports success, and
`_read_file` returns the outside file's contents — no error result
(there is no `PathSecurityError` anywhere in the code) and no refusal. -/
theorem c1_counterexample :
    ((resolveAgainst ["ws"] (parsePath "../outside.txt")).take 1 ≠ ["ws"]) ∧
    (deleteFileTool c1Fs ["ws"] c1Args).1 =
      Except.ok "File deleted: ../outside.txt" ∧
    (deleteFileTool c1Fs ["ws"] c1Args).2.files = [] ∧
    readFileTool 100 c1Fs ["ws"] c1Args =
      Except.ok "File: ../outside.txt\nSize: 6.0B\n\nsecret" :=
  ⟨by decide, rfl, rfl, rfl⟩

/-- C1 amended: the filesystem tools resolve a relative argument path
against the process current working directory (as the operating system
does) and perform the operation wherever the path lands — with no
containment check against a workspace root of any kind.  For
`_delete_file`: any existing regular file named by the cleaned argument is
deleted, whether or not the resolved path lies under any workspace root. -/
theorem c1_no_containment (fs : FileSystem) (cwd : List String)
    (raw : String) (f : FSFile)
    (hfile : fs.fileAt
      (resolveAgainst cwd (parsePath (cleanPathArg raw))) = some f) :
    deleteFileTool fs cwd [("path", ArgVal.vstr raw)] =
      (Except.ok ("File deleted: " ++ pathStr (parsePath (cleanPathArg raw))),
       fs.removeFile (resolveAgainst cwd (parsePath (cleanPathArg raw)))) := by
  unfold deleteFileTool getPathArg
  have hex : fs.existsAt
      (resolveAgainst cwd (parsePath (cleanPathArg raw))) = true := by
    unfold FileSystem.existsAt
    rw [hfile]
    rfl
  simp [dget, hex, hfile]

theorem c1_no_containment_witness :
    deleteFileTool c1Fs ["ws"] [("path", ArgVal.vstr "../outside.txt")] =
      (Except.ok "File deleted: ../outside.txt",
       c1Fs.removeFile ["outside.txt"]) := by
  have h := c1_no_containment c1Fs ["ws"] "../outside.txt"
    { content := "secret", size := 6 } rfl
  exact h.trans (by rfl)

/-! ## C4 — block isolation in the tool-call parser -/

theorem parseBlockLine_name_none (jp : String → Option PyJson)
    (st : BlockState) (l : String) (hst : st.name = none)
    (hl : lineKey l ≠ some "name") :
    (parseBlockLine jp st l).name = none := by
  unfold parseBlockLine
  by_cases he : pyStripL l.data = []
  · simp [he, hst]
  · rw [if_neg he]
    cases hsp : splitFirst ':' (pyStripL l.data) with
    | none => exact hst
    | some kv =>
      obtain ⟨k, v⟩ := kv
      have hk : (⟨pyStripL k⟩ : String) ≠ "name" := by
        intro hh
        apply hl
        unfold lineKey lineKV
        rw [if_neg he, hsp]
        simp [hh]
      dsimp only
      rw [if_neg hk]
      by_cases ha : (⟨pyStripL k⟩ : String) = "args"
      · rw [if_pos ha]
        exact hst
      · rw [if_neg ha]
        exact hst

theorem foldl_parseBlockLine_name_none (jp : String → Option PyJson)
    (lines : List String) (st : BlockState) (hst : st.name = none)
    (hl : ∀ l ∈ lines, lineKey l ≠ some "name") :
    (lines.foldl (parseBlockLine jp) st).name = none := by
  induction lines generalizing st with
  | nil => exact hst
  | cons l t ih =>
    exact ih (parseBlockLine jp st l)
      (parseBlockLine_name_none jp st l hst (hl l (by simp)))
      (fun l2 h2 => hl l2 (by simp [h2]))

/-- A block none of whose lines assigns `name` parses to no invocation. -/
theorem parse_tool_block_none_of_no_name (jp : String → Option PyJson)
    (b : List Char) (h : blockHasName b = false) :
    parse_tool_block jp b = none := by
  unfold parse_tool_block parseBlockLines
  have h3 := List.any_eq_false.mp
    (show ((splitChar '\n' (pyStripL b)).map (fun l => (⟨l⟩ : String))).any
      (fun l => decide (lineKey l = some "name")) = false from h)
  have hl : ∀ l ∈ (splitChar '\n' (pyStripL b)).map
      (fun l => (⟨l⟩ : String)), lineKey l ≠ some "name" := by
    intro l hm
    simpa using h3 l hm
  dsimp only
  rw [foldl_parseBlockLine_name_none jp _ _ rfl hl]

/-- C4: a tool block none of whose lines carries a `name:` key yields zero
invocations, while every other block of the same response contributes its
own parse, independently and in source order: the parsed invocation list is
the concatenation of the parses of the blocks before and after it. -/
theorem c4_block_isolation (jp : String → Option PyJson) (r : String)
    (bs₁ bs₂ : List (List Char)) (b : List Char)
    (hsplit : findToolBlocks r.data = bs₁ ++ b :: bs₂)
    (hname : blockHasName b = false) :
    parse_tools jp r =
      bs₁.filterMap (parse_tool_block jp) ++
        bs₂.filterMap (parse_tool_block jp) := by
  unfold parse_tools
  rw [hsplit, List.filterMap_append]
  simp [List.filterMap_cons, parse_tool_block_none_of_no_name jp b hname]

/-- A `json.loads` that always fails: every argument value stays a raw
string (no value in the witness blocks is valid JSON anyway). -/
def noJson : String → Option PyJson := fun _ => none

/-- The response of the C4 witness: two well-formed tool blocks around a
block with no `name:` line. -/
def c4Response : String :=
  "Intro\n```tool\nname: read_file\nargs:\n  path: a.txt\n```\nmid\n" ++
  "```tool\nargs:\n  path: b.txt\n```\n" ++
  "```tool\nname: list_directory\ndirectory: .\n```\ndone"

set_option maxRecDepth 4000 in
theorem c4_block_isolation_witness :
    parse_tools noJson c4Response =
      [{ name := "read_file", args := some [("path", ArgVal.vstr "a.txt")] },
       { name := "list_directory",
         args := some [("directory", ArgVal.vstr ".")] }] := by
  have h := c4_block_isolation noJson c4Response
    ["name: read_file\nargs:\n  path: a.txt".data]
    ["name: list_directory\ndirectory: .".data]
    "args:\n  path: b.txt".data rfl rfl
  rw [h]
  rfl

/-! ## C5 — args merging and duplicate keys -/

/-- The lines of the C5 counterexample block. -/
def c5Block : List Char :=
  "name: write_file\nk: v1\nk: v2\nargs:\n  a: 1".data

/-- A response holding exactly the C5 counterexample block. -/
def c5Response : String :=
  "```tool\nname: write_file\nk: v1\nk: v2\nargs:\n  a: 1\n```"

/-- C5 refutation: the key `k` occurs twice in the block (last value
`v2`), yet the parsed invocation's args contain no `k` at all — the later
`args:` line replaced the whole accumulated dict with the parse of its
(empty) inline value, so the last occurrence of `k` did not survive. -/
theorem c5_counterexample :
    (((splitChar '\n' (pyStripL c5Block)).map
        (fun l => (⟨l⟩ : String))).countP
      (fun l => lineKey l == some "k") = 2) ∧
    parse_tools noJson c5Response =
      [{ name := "write_file", args := some [("a", ArgVal.vstr "1")] }] ∧
    dget (((parse_tools noJson c5Response).headD
      { name := "", args := none }).args.getD []) "k" = none :=
  ⟨rfl, rfl, rfl⟩

theorem parseBlockLine_sets_key (jp : String → Option PyJson)
    (st : BlockState) (l : String) (k v : String)
    (hkv : lineKV l = some (k, v)) (hkname : k ≠ "name")
    (hkargs : k ≠ "args") :
    parseBlockLine jp st l =
      { name := st.name,
        args := some (dset (st.args.getD []) k (ArgVal.vstr v)) } := by
  unfold lineKV at hkv
  unfold parseBlockLine
  by_cases he : pyStripL l.data = []
  · rw [if_pos he] at hkv
    exact absurd hkv (by simp)
  · rw [if_neg he] at hkv
    rw [if_neg he]
    cases hsp : splitFirst ':' (pyStripL l.data) with
    | none =>
      rw [hsp] at hkv
      exact absurd hkv (by simp)
    | some kv =>
      obtain ⟨k0, v0⟩ := kv
      rw [hsp] at hkv
      have hk : (⟨pyStripL k0⟩ : String) = k := congrArg Prod.fst
        (Option.some.inj hkv)
      have hv : (⟨pyStripL v0⟩ : String) = v := congrArg Prod.snd
        (Option.some.inj hkv)
      dsimp only
      rw [hk, hv, if_neg hkname, if_neg hkargs]

theorem parseBlockLine_keeps_key (jp : String → Option PyJson)
    (st : BlockState) (l : String) (k : String) (d : ArgsDict) (x : ArgVal)
    (hargs : st.args = some d) (hd : dget d k = some x)
    (hk : lineKey l ≠ some k) (ha : lineKey l ≠ some "args") :
    ∃ d2, (parseBlockLine jp st l).args = some d2 ∧ dget d2 k = some x := by
  unfold parseBlockLine
  by_cases he : pyStripL l.data = []
  · rw [if_pos he]
    exact ⟨d, hargs, hd⟩
  · rw [if_neg he]
    cases hsp : splitFirst ':' (pyStripL l.data) with
    | none => exact ⟨d, hargs, hd⟩
    | some kv =>
      obtain ⟨k0, v0⟩ := kv
      have hkey : lineKey l = some (⟨pyStripL k0⟩ : String) := by
        unfold lineKey lineKV
        rw [if_neg he, hsp]
        rfl
      have hk0 : (⟨pyStripL k0⟩ : String) ≠ k := fun hh =>
        hk (hkey.trans (congrArg some hh))
      have ha0 : (⟨pyStripL k0⟩ : String) ≠ "args" := fun hh =>
        ha (hkey.trans (congrArg some hh))
      dsimp only
      by_cases hn : (⟨pyStripL k0⟩ : String) = "name"
      · rw [if_pos hn]
        exact ⟨d, hargs, hd⟩
      · rw [if_neg hn, if_neg ha0]
        refine ⟨dset (st.args.getD []) ⟨pyStripL k0⟩
          (ArgVal.vstr ⟨pyStripL v0⟩), rfl, ?_⟩
        rw [hargs]
        simpa using (dget_dset_ne d (⟨pyStripL k0⟩ : String) k _ hk0).trans hd

theorem foldl_parseBlockLine_keeps_key (jp : String → Option PyJson)
    (post : List String) (st : BlockState) (k : String) (d : ArgsDict)
    (x : ArgVal) (hargs : st.args = some d) (hd : dget d k = some x)
    (hpost : ∀ l2 ∈ post, lineKey l2 ≠ some k ∧ lineKey l2 ≠ some "args") :
    ∃ d2, (post.foldl (parseBlockLine jp) st).args = some d2 ∧
      dget d2 k = some x := by
  induction post generalizing st d with
  | nil => exact ⟨d, hargs, hd⟩
  | cons l2 t ih =>
    obtain ⟨d1, hd1, hx1⟩ := parseBlockLine_keeps_key jp st l2 k d x hargs hd
      (hpost l2 (by simp)).1 (hpost l2 (by simp)).2
    exact ih (parseBlockLine jp st l2) d1 hd1 hx1
      (fun l3 h3 => hpost l3 (by simp [h3]))

theorem fixSearchContent_name (t : ToolCall) :
    (fixSearchContent t).name = t.name := by
  unfold fixSearchContent
  by_cases h : t.name = "search_content"
  · rw [if_pos h]
    cases t.args with
    | none => rfl
    | some d =>
      dsimp only
      by_cases hc : (dget d "pattern").isSome && (dget d "query").isNone
      · rw [if_pos hc]
      · rw [if_neg hc]
  · rw [if_neg h]

theorem fixSearchContent_id (t : ToolCall) (h : t.name ≠ "search_content") :
    fixSearchContent t = t := by
  unfold fixSearchContent
  rw [if_neg h]

/-- C5 amended: a top-level `key: value` line outside the `args:` section
is merged into the invocation's args, and among several assignments to the
same key the last one wins — *provided* no later line of the block is an
`args:` line: an `args:` line replaces the entire accumulated dict with the
parse of its inline value, discarding every key assigned before it (the
unmodelled `search_content` remapping is also excluded). -/
theorem c5_last_wins_amended (jp : String → Option PyJson)
    (pre post : List String) (l : String) (k v : String) (t : ToolCall)
    (hkv : lineKV l = some (k, v)) (hkname : k ≠ "name")
    (hkargs : k ≠ "args")
    (hpost : ∀ l2 ∈ post, lineKey l2 ≠ some k ∧ lineKey l2 ≠ some "args")
    (hparse : parseBlockLines jp (pre ++ l :: post) = some t)
    (hsc : t.name ≠ "search_content") :
    dget (t.args.getD []) k = some (ArgVal.vstr v) := by
  unfold parseBlockLines at hparse
  rw [List.foldl_append] at hparse
  set st1 := pre.foldl (parseBlockLine jp) { name := none, args := none }
    with hst1
  rw [List.foldl_cons,
    parseBlockLine_sets_key jp st1 l k v hkv hkname hkargs] at hparse
  obtain ⟨d2, hd2, hx2⟩ := foldl_parseBlockLine_keeps_key jp post
    { name := st1.name,
      args := some (dset (st1.args.getD []) k (ArgVal.vstr v)) } k
    (dset (st1.args.getD []) k (ArgVal.vstr v)) (ArgVal.vstr v) rfl
    (dget_dset_self _ k _) hpost
  set stf := post.foldl (parseBlockLine jp)
    { name := st1.name,
      args := some (dset (st1.args.getD []) k (ArgVal.vstr v)) } with hstf
  dsimp only at hparse
  cases hn : stf.name with
  | none =>
    rw [hn] at hparse
    exact absurd hparse (by simp)
  | some n =>
    rw [hn] at hparse
    have ht : t = fixSearchContent { name := n, args := stf.args } :=
      (Option.some.inj hparse).symm
    have hnm : ({ name := n, args := stf.args } : ToolCall).name ≠
        "search_content" := by
      intro hh
      apply hsc
      rw [ht, fixSearchContent_name]
      exact hh
    rw [ht, fixSearchContent_id _ hnm]
    dsimp only
    rw [hd2]
    exact hx2

/-- The invocation parsed from the C5 witness block, whose lines assign
`path` twice at top level (no later `args:` line): the last assignment
wins. -/
def c5WitnessTool : ToolCall :=
  { name := "write_file",
    args := some [("path", ArgVal.vstr "new.txt"),
                  ("mode", ArgVal.vstr "w")] }

theorem c5_last_wins_amended_witness :
    dget (c5WitnessTool.args.getD []) "path" =
      some (ArgVal.vstr "new.txt") := by
  have h := c5_last_wins_amended noJson
    ["name: write_file", "path: old.txt"] ["mode: w"] "path: new.txt"
    "path" "new.txt" c5WitnessTool
    rfl (by decide) (by decide) (by decide) rfl (by decide)
  exact h

/-! ## C6 — declined confirmation aborts the whole batch -/

/-- C6: in manual mode (`auto_run_mode = False`), when the model response
parses to a non-empty batch of invocations and the user declines the
confirmation, the turn returns immediately: zero capability calls are made
and no follow-up model turn begins. -/
theorem c6_decline_aborts (jp : String → Option PyJson)
    (runTool : ToolCall → String) (inp : TurnInput) (sess : ChatSession)
    (now aiResp : String) (tk : Nat)
    (hresp : inp.firstResp = Except.ok (aiResp, tk))
    (htools : parse_tools jp aiResp ≠ [])
    (hconf : inp.confirmFirst = false) :
    (process_user_message jp false runTool inp sess now).executedTools = [] ∧
    (process_user_message jp false runTool inp sess now).followupStarted =
      false := by
  unfold process_user_message
  rw [hresp]
  dsimp only
  cases hl : parse_tools jp aiResp with
  | nil => exact absurd hl htools
  | cons t ts =>
    rw [hconf]
    have hc : confirm_tool_execution (t :: ts) false = false := rfl
    simp [hc]

/-- The response of the C6 witness: three well-formed tool blocks. -/
def c6Response : String :=
  "```tool\nname: read_file\nargs:\n  path: a.txt\n```\n" ++
  "```tool\nname: list_directory\ndirectory: .\n```\n" ++
  "```tool\nname: run_command\ncommand: ls\n```"

/-- The turn input of the C6 witness: the model produced `c6Response`, the
user declines. -/
def c6Input : TurnInput :=
  { message := "clean up",
    firstResp := Except.ok (c6Response, 7),
    confirmFirst := false,
    followupResp := Except.error "unused",
    confirmFollowup := false }

set_option maxRecDepth 4000 in
theorem c6_decline_aborts_witness :
    ((parse_tools noJson c6Response).length = 3) ∧
    (process_user_message noJson false (fun _ => "ok") c6Input
      (create_new_chat "chat_1" "t" "now") "now").executedTools = [] ∧
    (process_user_message noJson false (fun _ => "ok") c6Input
      (create_new_chat "chat_1" "t" "now") "now").followupStarted = false := by
  have hne : parse_tools noJson c6Response ≠ [] := by
    intro h
    exact absurd (congrArg List.length h) (by decide)
  have h := c6_decline_aborts noJson (fun _ => "ok") c6Input
    (create_new_chat "chat_1" "t" "now") "now" c6Response 7 rfl hne rfl
  exact ⟨by decide, h.1, h.2⟩

/-! ## C9 — cache entry invariant and the size ceiling -/

/-- What actually holds of every cache entry: allowed extension, text
sniff passed, not excluded — and the oversized-marker rule in place of the
claimed size ceiling. -/
def cacheEntryOK (cfg : CodebaseConfig) (fnm : String → String → Bool)
    (e : CodebaseFile) : Prop :=
  cfg.context_file_types.any (fun x => x = e.extension) = true ∧
  e.is_text = true ∧
  should_exclude fnm cfg.exclude_patterns e.path = false ∧
  (e.size > 10 * 1024 →
    e.content_preview = (⟨(fileTooLargeMarker e.size).data.take 500⟩ : String))

theorem fileTooLargeMarker_ne_empty (n : Nat) :
    fileTooLargeMarker n ≠ "" := by
  unfold fileTooLargeMarker
  intro h
  have h2 := congrArg String.data h
  simp [String.data_append] at h2

theorem add_file_to_context_ok (cfg : CodebaseConfig)
    (fnm : String → String → Bool) (pathString relPathString name : String)
    (size : Nat) (content : String) (mtime : Nat) (cache : Cache)
    (hexcl : should_exclude fnm cfg.exclude_patterns pathString = false)
    (hcache : ∀ k e, dget cache k = some e → cacheEntryOK cfg fnm e) :
    ∀ k e, dget (add_file_to_context cfg pathString relPathString name size
      content mtime cache) k = some e → cacheEntryOK cfg fnm e := by
  intro k e h
  unfold add_file_to_context at h
  by_cases hext : cfg.context_file_types.any
      (fun x => x = pyLower (pySuffix name)) = true
  · rw [if_neg (by simp [hext])] at h
    by_cases htext : is_text_file name content = true
    · rw [if_neg (by simp [htext])] at h
      dsimp only at h
      rcases dget_dset_cases _ _ _ _ _ h with he | hold
      · subst he
        refine ⟨hext, htext, hexcl, ?_⟩
        intro hsize
        dsimp only
        rw [if_pos hsize]
        rw [if_pos (fileTooLargeMarker_ne_empty size)]
      · exact hcache k e hold
    · rw [if_pos (by simpa using htext)] at h
      exact hcache k e h
  · rw [if_pos (by simpa using hext)] at h
    exact hcache k e h

mutual
theorem scan_directory_ok (cfg : CodebaseConfig)
    (fnm : String → String → Bool) (t : FSTree) (depth : Nat)
    (absPath : String) (relParts : List String) (cache : Cache)
    (hcache : ∀ k e, dget cache k = some e → cacheEntryOK cfg fnm e) :
    ∀ k e, dget (scan_directory cfg fnm depth absPath relParts cache t) k =
      some e → cacheEntryOK cfg fnm e := by
  cases t with
  | file n size content mtime => exact hcache
  | dir n entries denied =>
    unfold scan_directory
    by_cases hden : denied = true
    · rw [if_pos hden]
      exact hcache
    · rw [if_neg hden]
      by_cases hdep : depth > cfg.context_depth
      · rw [if_pos hdep]
        exact hcache
      · rw [if_neg hdep]
        exact scanItems_ok cfg fnm entries depth absPath relParts cache hcache

theorem scanItems_ok (cfg : CodebaseConfig) (fnm : String → String → Bool)
    (f : FSForest) (depth : Nat) (absPath : String) (relParts : List String)
    (cache : Cache)
    (hcache : ∀ k e, dget cache k = some e → cacheEntryOK cfg fnm e) :
    ∀ k e, dget (scanItems cfg fnm depth absPath relParts cache f) k =
      some e → cacheEntryOK cfg fnm e := by
  cases f with
  | nil => exact hcache
  | cons item rest =>
    unfold scanItems
    refine scanItems_ok cfg fnm rest depth absPath relParts _ ?_
    cases item with
    | file n size content mtime =>
      dsimp only
      by_cases hexcl : should_exclude fnm cfg.exclude_patterns
          (absPath ++ "/" ++ n) = true
      · rw [if_pos hexcl]
        exact hcache
      · rw [if_neg hexcl]
        exact add_file_to_context_ok cfg fnm (absPath ++ "/" ++ n)
          (joinSep "/" (relParts ++ [n])) n size content mtime cache
          (by simpa using hexcl) hcache
    | dir n entries denied =>
      dsimp only
      by_cases hexcl : should_exclude fnm cfg.exclude_patterns
          (absPath ++ "/" ++ n) = true
      · rw [if_pos hexcl]
        exact hcache
      · rw [if_neg hexcl]
        by_cases hdep : depth < cfg.context_depth
        · rw [if_pos hdep]
          exact scan_directory_ok cfg fnm (FSTree.dir n entries denied)
            (depth + 1) (absPath ++ "/" ++ n) (relParts ++ [n]) cache hcache
        · rw [if_neg hdep]
          exact hcache
end

/-- C9 amended: after a refresh, every cache entry has an allowed
extension, passed the text-content sniff, and matches no exclude pattern —
but the size ceiling is *not* an admission condition: a file over the 10KB
reading ceiling is still cached, deterministically marked oversized by
carrying the bracketed `[File too large: …]` marker as its preview instead
of file content.  A file exactly at the ceiling is cached with its real
content preview (see the counterexample and witness instances). -/
theorem c9_cache_invariant_amended (cfg : CodebaseConfig)
    (fnm : String → String → Bool) (rootPath : String) (root : FSTree)
    (k : String) (e : CodebaseFile)
    (h : dget (refresh_context cfg fnm rootPath root) k = some e) :
    cfg.context_file_types.any (fun x => x = e.extension) = true ∧
    e.is_text = true ∧
    should_exclude fnm cfg.exclude_patterns e.path = false ∧
    (e.size > 10 * 1024 →
      e.content_preview =
        (⟨(fileTooLargeMarker e.size).data.take 500⟩ : String)) :=
  scan_directory_ok cfg fnm root 0 rootPath [] []
    (fun _ _ hh => absurd hh (by simp [dget])) k e h

/-- The workspace tree of the C9 instances: a text file one byte over the
10KB ceiling and a text file exactly at it, both with allowed extensions
and no matching exclude pattern. -/
def c9Tree : FSTree :=
  FSTree.dir "proj"
    (FSForest.cons (FSTree.file "big.txt" 10241 "hello" 0)
      (FSForest.cons (FSTree.file "edge.txt" 10240 "edgecontent" 0)
        FSForest.nil)) false

/-- The codebase configuration of the C9 instances. -/
def c9Cfg : CodebaseConfig :=
  { context_depth := 3, exclude_patterns := ["node_modules"],
    context_file_types := [".txt", ".py"] }

/-- Model of `fnmatch.fnmatch` for the C9 instances: the pattern `node_modules`
matches neither path. -/
def noMatchFn : String → String → Bool := fun _ _ => false

/-- The cache entry of the oversized file. -/
def c9BigEntry : CodebaseFile :=
  { path := "/proj/big.txt", relative_path := "big.txt", name := "big.txt",
    extension := ".txt", size := 10241, size_formatted := "10.0KB",
    modified := 0, is_text := true,
    content_preview := "[File too large: 10.0KB]", lines := 1 }

/-- The cache entry of the at-ceiling file. -/
def c9EdgeEntry : CodebaseFile :=
  { path := "/proj/edge.txt", relative_path := "edge.txt",
    name := "edge.txt", extension := ".txt", size := 10240,
    size_formatted := "10.0KB", modified := 0, is_text := true,
    content_preview := "edgecontent", lines := 1 }

/-- C9 refutation: after a refresh the cache contains an entry for a file
whose size exceeds the 10KB ceiling (with the oversized marker as its
preview), so "every entry is for a file within the size ceiling" is false;
the file exactly at the ceiling is cached with its real content. -/
theorem c9_counterexample :
    dget (refresh_context c9Cfg noMatchFn "/proj" c9Tree) "big.txt" =
      some c9BigEntry ∧
    c9BigEntry.size > 10 * 1024 ∧
    dget (refresh_context c9Cfg noMatchFn "/proj" c9Tree) "edge.txt" =
      some c9EdgeEntry ∧
    c9EdgeEntry.size ≤ 10 * 1024 :=
  ⟨rfl, by decide, rfl, by decide⟩

theorem c9_cache_invariant_amended_witness :
    c9Cfg.context_file_types.any (fun x => x = c9BigEntry.extension) =
      true ∧
    c9BigEntry.is_text = true ∧
    should_exclude noMatchFn c9Cfg.exclude_patterns c9BigEntry.path =
      false ∧
    c9BigEntry.content_preview =
      (⟨(fileTooLargeMarker c9BigEntry.size).data.take 500⟩ : String) := by
  have h := c9_cache_invariant_amended c9Cfg noMatchFn "/proj" c9Tree
    "big.txt" c9BigEntry rfl
  exact ⟨h.1, h.2.1, h.2.2.1, h.2.2.2 (by decide)⟩

end Pointer
